import Mathlib

/-
  Shallow embedding of `src/dynamic_whitelist_bridge.cpp` (rapyuta-robotics/ros1_bridge).

  Machine-level conventions of the embedding:
  * `std::map<std::string, V>` is modelled as an association list `List (String × V)`;
    `find` is `lookupKey`, `erase(it)` is `eraseKey` (removes the first entry with the
    key), `operator[] =` is `setKey` (replace in place, or append when absent).
    Iteration order follows list order; every property proved here is insensitive to
    the ordering difference between a sorted `std::map` and the list.
  * `std::set<std::string>` is modelled as a `List String` with `insertStr` and `∈`.
  * `std::regex` values are opaque to the reconciler; a pattern is modelled as its
    matching function `String → Bool` (`std::regex_match name rgxp`).
  * External collaborators (bridge factory, type-mapping lookup, service factory,
    service-bridge construction, `server.shutdown()`) are an oracle structure `Env`;
    a `Bool` oracle answers whether the corresponding C++ call succeeds or throws
    `std::runtime_error`.
  * Observable side effects (factory calls, registry erasures) are reified as an
    `Event` trace, in program order.
-/

namespace DynBridge

/-! ## Association-list primitives (std::map / std::set counterparts) -/

def lookupKey {α : Type} : List (String × α) → String → Option α
  | [], _ => none
  | (k, v) :: rest, n => if k = n then some v else lookupKey rest n

def eraseKey {α : Type} : List (String × α) → String → List (String × α)
  | [], _ => []
  | (k, v) :: rest, n => if k = n then rest else (k, v) :: eraseKey rest n

def setKey {α : Type} : List (String × α) → String → α → List (String × α)
  | [], n, v => [(n, v)]
  | (k, w) :: rest, n, v => if k = n then (n, v) :: rest else (k, w) :: setKey rest n v

def insertStr (n : String) (l : List String) : List String :=
  if n ∈ l then l else n :: l

@[simp] theorem lookupKey_nil {α : Type} (n : String) : lookupKey ([] : List (String × α)) n = none := rfl

@[simp] theorem lookupKey_cons {α : Type} (k : String) (v : α) (rest : List (String × α)) (n : String) :
    lookupKey ((k, v) :: rest) n = if k = n then some v else lookupKey rest n := rfl

theorem lookupKey_eraseKey_ne {α : Type} (l : List (String × α)) (m n : String) (h : m ≠ n) :
    lookupKey (eraseKey l m) n = lookupKey l n := by
  induction l with
  | nil => rfl
  | cons p rest ih =>
    obtain ⟨k, v⟩ := p
    by_cases hk : k = m
    · subst hk
      simp [eraseKey, lookupKey, h]
    · simp [eraseKey, hk, lookupKey]
      by_cases hn : k = n
      · simp [hn]
      · simp [hn, ih]

theorem lookupKey_setKey_ne {α : Type} (l : List (String × α)) (m n : String) (v : α) (h : m ≠ n) :
    lookupKey (setKey l m v) n = lookupKey l n := by
  induction l with
  | nil => simp [setKey, lookupKey, h]
  | cons p rest ih =>
    obtain ⟨k, w⟩ := p
    by_cases hk : k = m
    · subst hk
      simp [setKey, lookupKey, h]
    · simp [setKey, hk, lookupKey]
      by_cases hn : k = n
      · simp [hn]
      · simp [hn, ih]

theorem lookupKey_eq_none_forall {α : Type} (l : List (String × α)) (n : String) :
    lookupKey l n = none → ∀ p ∈ l, p.1 ≠ n := by
  induction l with
  | nil => intro _ p hp; cases hp
  | cons q rest ih =>
    obtain ⟨k, v⟩ := q
    intro h p hp
    by_cases hk : k = n
    · simp [lookupKey, hk] at h
    · simp [lookupKey, hk] at h
      rcases List.mem_cons.mp hp with rfl | hp'
      · exact hk
      · exact ih h p hp'

theorem mem_insertStr (m n : String) (l : List String) :
    m ∈ insertStr n l ↔ m = n ∨ m ∈ l := by
  unfold insertStr
  by_cases h : n ∈ l
  · simp only [if_pos h]
    constructor
    · exact Or.inr
    · rintro (rfl | hm)
      · exact h
      · exact hm
  · simp [if_neg h]

/-! ## Whitelist matcher: `check_inregex_list` (lines 69–81)

The C++ function takes a `std::vector<std::regex>` and a mutable `std::set` cache.
The model returns the result, the updated cache, and the number of
`std::regex_match` evaluations performed (the "call counter on the matching
primitive" of the specification). -/

structure CheckResult where
  result : Bool
  known_set : List String
  evals : Nat
deriving DecidableEq

def check_go (name : String) (known_set : List String) :
    List (String → Bool) → Nat → CheckResult
  | [], k => ⟨false, known_set, k⟩
  | rgxp :: rest, k =>
    if rgxp name then ⟨true, insertStr name known_set, k + 1⟩
    else check_go name known_set rest (k + 1)

def check_inregex_list (regex_list : List (String → Bool)) (name : String)
    (known_set : List String) : CheckResult :=
  if name ∈ known_set then ⟨true, known_set, 0⟩
  else check_go name known_set regex_list 0

theorem check_go_result (name : String) (known_set : List String)
    (regex_list : List (String → Bool)) (k : Nat) :
    (check_go name known_set regex_list k).result = regex_list.any (fun p => p name) := by
  induction regex_list generalizing k with
  | nil => simp [check_go]
  | cons p rest ih =>
    by_cases hp : p name
    · simp [check_go, hp]
    · simp [check_go, hp, ih]

theorem check_go_known (name : String) (known_set : List String)
    (regex_list : List (String → Bool)) (k : Nat) :
    (check_go name known_set regex_list k).known_set =
      (if (check_go name known_set regex_list k).result then insertStr name known_set
       else known_set) := by
  induction regex_list generalizing k with
  | nil => simp [check_go]
  | cons p rest ih =>
    by_cases hp : p name
    · simp [check_go, hp]
    · simp [check_go, hp, ih]

/-- Claim C7: for a name not in the cache, `check_inregex_list` returns true iff some
regex in the list matches the name; on a true result the name is inserted into the
cache and every later call with the same name returns true with zero regex
evaluations; on a false result the cache is unchanged (the name is not cached). -/
theorem whitelist_matcher_contract (regex_list : List (String → Bool)) (name : String)
    (known_set : List String) (h : name ∉ known_set) :
    ((check_inregex_list regex_list name known_set).result =
        regex_list.any (fun p => p name)) ∧
    ((check_inregex_list regex_list name known_set).result = true →
        (check_inregex_list regex_list name known_set).known_set = name :: known_set ∧
        check_inregex_list regex_list name
            (check_inregex_list regex_list name known_set).known_set =
          ⟨true, (check_inregex_list regex_list name known_set).known_set, 0⟩) ∧
    ((check_inregex_list regex_list name known_set).result = false →
        (check_inregex_list regex_list name known_set).known_set = known_set) := by
  unfold check_inregex_list
  simp only [if_neg h]
  refine ⟨check_go_result name known_set regex_list 0, ?_, ?_⟩
  · intro htrue
    have hk := check_go_known name known_set regex_list 0
    rw [htrue] at hk
    simp only [if_pos rfl] at hk
    have hins : insertStr name known_set = name :: known_set := by
      simp [insertStr, h]
    refine ⟨hk.trans hins, ?_⟩
    have hmem : name ∈ (check_go name known_set regex_list 0).known_set := by
      rw [hk, hins]; exact List.mem_cons_self _ _
    simp [if_pos hmem]
  · intro hfalse
    have hk := check_go_known name known_set regex_list 0
    rw [hfalse] at hk
    simpa using hk

def patsC7 : List (String → Bool) := [fun _ => false, fun n => n = "/scan"]

/-- Witness for C7 at a concrete input: name not cached, second pattern matches. -/
theorem whitelist_matcher_contract_witness :
    ("/scan" ∉ (["/tf"] : List String)) ∧
    (((check_inregex_list patsC7 "/scan" ["/tf"]).result =
        patsC7.any (fun p => p "/scan")) ∧
      ((check_inregex_list patsC7 "/scan" ["/tf"]).result = true →
        (check_inregex_list patsC7 "/scan" ["/tf"]).known_set = "/scan" :: ["/tf"] ∧
        check_inregex_list patsC7 "/scan" (check_inregex_list patsC7 "/scan" ["/tf"]).known_set =
          ⟨true, (check_inregex_list patsC7 "/scan" ["/tf"]).known_set, 0⟩) ∧
      ((check_inregex_list patsC7 "/scan" ["/tf"]).result = false →
        (check_inregex_list patsC7 "/scan" ["/tf"]).known_set = ["/tf"])) :=
  ⟨by decide, whitelist_matcher_contract patsC7 "/scan" ["/tf"] (by decide)⟩

/-! ## ros1_poll topic filtering (lines 586–610)

For each discovered topic name with at least one external node, `ros1_poll` runs:
`if (already_ignored_ros1_topics.count(topic_name) == 0) { if (check_inregex_list(...)) {
active.insert } else { log; already_ignored.insert } }` — a name already in the
ignored set is skipped entirely (the matcher is not consulted).  The subscriber loop
(lines 611–635) and the two loops of `ros2_poll` (lines 778–789, 843–854) have the
same shape.  `evals` accumulates the number of regex evaluations performed. -/

structure ScanResult where
  active : List String
  ignored : List String
  valid : List String
  evals : Nat
deriving DecidableEq

def ros1_topic_scan (patterns : List (String → Bool)) :
    List String → List String → List String → ScanResult
  | [], ignored, valid => ⟨[], ignored, valid, 0⟩
  | n :: rest, ignored, valid =>
    if n ∈ ignored then ros1_topic_scan patterns rest ignored valid
    else
      let c := check_inregex_list patterns n valid
      if c.result then
        let r := ros1_topic_scan patterns rest ignored c.known_set
        ⟨insertStr n r.active, r.ignored, r.valid, c.evals + r.evals⟩
      else
        let r := ros1_topic_scan patterns rest (insertStr n ignored) valid
        ⟨r.active, r.ignored, r.valid, c.evals + r.evals⟩

theorem scan_not_active (patterns : List (String → Bool)) (names : List String) :
    ∀ ignored valid n, n ∈ ignored →
      n ∉ (ros1_topic_scan patterns names ignored valid).active := by
  induction names with
  | nil =>
    intro ignored valid n h
    simp [ros1_topic_scan]
  | cons m rest ih =>
    intro ignored valid n h
    by_cases hm : m ∈ ignored
    · simp only [ros1_topic_scan, if_pos hm]
      exact ih ignored valid n h
    · simp only [ros1_topic_scan, if_neg hm]
      by_cases hr : (check_inregex_list patterns m valid).result
      · simp only [if_pos hr]
        intro hmem
        rcases (mem_insertStr n m _).mp hmem with rfl | hmem'
        · exact hm h
        · exact ih ignored _ n h hmem'
      · simp only [if_neg hr]
        exact ih (insertStr m ignored) valid n ((mem_insertStr n m ignored).mpr (Or.inr h))

theorem scan_ignored_mono (patterns : List (String → Bool)) (names : List String) :
    ∀ ignored valid n, n ∈ ignored →
      n ∈ (ros1_topic_scan patterns names ignored valid).ignored := by
  induction names with
  | nil =>
    intro ignored valid n h
    simpa [ros1_topic_scan] using h
  | cons m rest ih =>
    intro ignored valid n h
    by_cases hm : m ∈ ignored
    · simp only [ros1_topic_scan, if_pos hm]
      exact ih ignored valid n h
    · simp only [ros1_topic_scan, if_neg hm]
      by_cases hr : (check_inregex_list patterns m valid).result
      · simp only [if_pos hr]
        exact ih ignored _ n h
      · simp only [if_neg hr]
        exact ih (insertStr m ignored) valid n ((mem_insertStr n m ignored).mpr (Or.inr h))

theorem scan_all_ignored (patterns : List (String → Bool)) (names : List String) :
    ∀ ignored valid, (∀ m ∈ names, m ∈ ignored) →
      ros1_topic_scan patterns names ignored valid = ⟨[], ignored, valid, 0⟩ := by
  induction names with
  | nil =>
    intro ignored valid _
    rfl
  | cons m rest ih =>
    intro ignored valid hall
    have hm : m ∈ ignored := hall m (List.mem_cons_self _ _)
    simp only [ros1_topic_scan, if_pos hm]
    exact ih ignored valid (fun x hx => hall x (List.mem_cons_of_mem _ hx))

def patsC8 : List (String → Bool) := [fun _ => true]

/-- Claim C8 counterexample: the name "/chatter" failed the whitelist in an earlier
cycle (it is in the already-ignored set); the pattern list now matches every name,
yet the next poll performs zero regex evaluations for it and does not activate it —
already-ignored names are not re-offered to the matcher. -/
theorem ignored_name_not_reoffered_cex :
    patsC8.any (fun p => p "/chatter") = true ∧
    ros1_topic_scan patsC8 ["/chatter"] ["/chatter"] [] = ⟨[], ["/chatter"], [], 0⟩ ∧
    "/chatter" ∉ (ros1_topic_scan patsC8 ["/chatter"] ["/chatter"] []).active ∧
    (ros1_topic_scan patsC8 ["/chatter"] ["/chatter"] []).evals = 0 :=
  ⟨by decide, by decide, by decide, by decide⟩

/-- Claim C8 (amended): the already-ignored set suppresses a previously failed name
entirely, not just its log output: a name in the set is never activated, stays in
the set, and when every discovered name is already ignored the poll performs zero
regex evaluations and leaves every accumulator unchanged. -/
theorem ignored_names_fully_suppressed (patterns : List (String → Bool))
    (names ignored valid : List String) (n : String) (h : n ∈ ignored) :
    n ∉ (ros1_topic_scan patterns names ignored valid).active ∧
    n ∈ (ros1_topic_scan patterns names ignored valid).ignored ∧
    ((∀ m ∈ names, m ∈ ignored) →
      ros1_topic_scan patterns names ignored valid = ⟨[], ignored, valid, 0⟩) :=
  ⟨scan_not_active patterns names ignored valid n h,
   scan_ignored_mono patterns names ignored valid n h,
   fun hall => scan_all_ignored patterns names ignored valid hall⟩

/-- Witness for the amended C8 at a concrete input. -/
theorem ignored_names_fully_suppressed_witness :
    ("/chatter" ∈ (["/chatter"] : List String)) ∧
    ("/chatter" ∉ (ros1_topic_scan patsC8 ["/chatter"] ["/chatter"] []).active ∧
     "/chatter" ∈ (ros1_topic_scan patsC8 ["/chatter"] ["/chatter"] []).ignored ∧
     ((∀ m ∈ (["/chatter"] : List String), m ∈ (["/chatter"] : List String)) →
       ros1_topic_scan patsC8 ["/chatter"] ["/chatter"] [] = ⟨[], ["/chatter"], [], 0⟩)) :=
  ⟨by decide,
   ignored_names_fully_suppressed patsC8 ["/chatter"] ["/chatter"] [] "/chatter" (by decide)⟩

/-! ## Type probe: `get_ros1_service_info` (lines 428–498)

The probe's external interactions are collected into a `ProbeEnv` oracle:
`lookup_ok` is `manager.lookupService`, `connect_ok` is `transport->connect`,
`len_read` is the return value of the 4-byte length read, `body_len` the received
length word, `body_read` the return value of the body read, `parse_ok` the result of
`ros::Header::parse`, and `type_field` the result of `header_in.getValue("type")`.

The `ros1_services` argument is modelled exactly as in the source: a map from
service name to a map of header fields.  The result is `Option`-valued: `some m`
is a normal return with final map `m`; `none` marks the run reaching
`t.begin() + t.find("/")` with `find` returning `npos` (lines 496–497), i.e.
out-of-bounds iterator arithmetic: the function has no separator check and no
defined behaviour on a separator-free type string. -/

structure ProbeEnv where
  lookup_ok : Bool
  connect_ok : Bool
  len_read : Int
  body_len : Nat
  body_read : Int
  parse_ok : Bool
  type_field : Option String
deriving DecidableEq

def findSlash (t : String) : Option Nat :=
  t.toList.findIdx? (fun c => c = '/')

def strTake (t : String) (i : Nat) : String := (t.toList.take i).asString

def strDrop (t : String) (i : Nat) : String := (t.toList.drop i).asString

def setField (m : List (String × List (String × String))) (k f v : String) :
    List (String × List (String × String)) :=
  setKey m k (setKey ((lookupKey m k).getD []) f v)

def get_ros1_service_info (e : ProbeEnv) (name : String)
    (ros1_services : List (String × List (String × String))) :
    Option (List (String × List (String × String))) :=
  if !e.lookup_ok then some ros1_services
  else if !e.connect_ok then some ros1_services
  else if e.len_read ≠ 4 then some ros1_services
  else if e.body_read < 0 ∨ e.body_read ≠ (e.body_len : Int) then some ros1_services
  else
    let m1 := setKey ros1_services name []
    if !e.parse_ok then some m1
    else
      match e.type_field with
      | none => some (eraseKey m1 name)
      | some v =>
        let m2 := setField m1 name "type" v
        match findSlash v with
        | none => none
        | some i =>
          let m3 := setField m2 name "package" (strTake v i)
          some (setField m3 name "name" (strDrop v (i + 1)))

def probeParseFail : ProbeEnv := ⟨true, true, 4, 0, 0, false, none⟩

/-- Claim C9: lookup, connect, both reads succeed, but `ros::Header::parse` fails.
The source sets `ros1_services[key] = {}` (line 477) before parsing and the parse
failure path (line 481) returns without erasing it, so the snapshot keeps an entry
with an empty details map — contradicting the claim that every probe failure leaves
no entry for the name. -/
theorem probe_parse_failure_leaves_entry :
    get_ros1_service_info probeParseFail "/add_two_ints" [] =
      some [("/add_two_ints", [])] :=
  by decide

def probeNoSlash : ProbeEnv := ⟨true, true, 4, 0, 0, true, some "EmptySrvNoSlash"⟩

/-- Claim C10: the probe resolves a type string containing no '/' separator.  The
source performs no separator check: `t.find("/")` returns `npos` and lines 496–497
compute `t.begin() + npos`, out-of-bounds iterator arithmetic (the model's `none`
outcome) — there is no parse-failure path and no guarantee that the entry is
dropped, contradicting the claim. -/
theorem probe_missing_separator_undefined :
    findSlash "EmptySrvNoSlash" = none ∧
    get_ros1_service_info probeNoSlash "/set_bool" [] = none :=
  ⟨by decide, by decide⟩

/-! ## Reconciler: `update_bridge` (lines 172–426)

State of the four registries.  Bridge handles are opaque and omitted: an entry of
`bridges_1to2`/`bridges_2to1` records the two type names stored in
`Bridge1to2HandlesAndMessageTypes`/`Bridge2to1HandlesAndMessageTypes`; a service
bridge entry is identified by its key. -/

structure TopicBridgeEntry where
  ros1_type_name : String
  ros2_type_name : String
deriving DecidableEq

structure BridgeState where
  bridges_1to2 : List (String × TopicBridgeEntry)
  bridges_2to1 : List (String × TopicBridgeEntry)
  service_bridges_1_to_2 : List String
  service_bridges_2_to_1 : List String
deriving DecidableEq

structure SvcDetails where
  package : String
  name : String
deriving DecidableEq

structure Inventory where
  ros1_publishers : List (String × String)
  ros1_subscribers : List (String × String)
  ros2_publishers : List (String × String)
  ros2_subscribers : List (String × String)
  ros1_services : List (String × SvcDetails)
  ros2_services : List (String × SvcDetails)

/-- External collaborators.  Each `..._ok` field answers whether the corresponding
C++ call returns normally (`true`) or throws `std::runtime_error` (`false`):
`create_1to2_ok topic t1 t2` for `create_bridge_from_1_to_2`, `create_2to1_ok topic
t2 t1` for `create_bridge_from_2_to_1`, `service_factory_exists dom pkg srv` for
`get_service_factory` returning a non-null factory, `service_bridge_2_to_1_ok` /
`service_bridge_1_to_2_ok` for the factory construction calls, and `shutdown_ok n`
for `it->second.server.shutdown()` on the `service_bridges_1_to_2` entry `n`. -/
structure Env where
  get_1to2_mapping : String → Option String
  get_2to1_mapping : String → Option String
  create_1to2_ok : String → String → String → Bool
  create_2to1_ok : String → String → String → Bool
  service_factory_exists : String → String → String → Bool
  service_bridge_2_to_1_ok : String → Bool
  service_bridge_1_to_2_ok : String → Bool
  shutdown_ok : String → Bool

/-- Observable actions of one `update_bridge` run, in program order.  `create...`
events mark bridge-factory construction attempts (emitted whether or not the call
throws); `serviceFactoryLookup` marks a `get_service_factory` call. -/
inductive Event where
  | createTopic1to2 (topic ros1_type ros2_type : String)
  | eraseTopic1to2 (topic : String)
  | createTopic2to1 (topic ros2_type ros1_type : String)
  | eraseTopic2to1 (topic : String)
  | serviceFactoryLookup (domain package srv : String)
  | createService2to1 (name : String)
  | createService1to2 (name : String)
  | eraseService2to1 (name : String)
  | eraseService1to2 (name : String)
deriving DecidableEq

/-- Desired ROS 2 type for a 1to2 candidate (lines 195–211): the matching ROS 2
subscriber's type, or in bridge-all mode the `get_1to2_mapping` image; `none`
means the publisher is skipped. -/
def desired1to2 (env : Env) (ros2_subscribers : List (String × String))
    (bridge_all_1to2_topics : Bool) (ros1_type_name : String) (topic_name : String) :
    Option String :=
  match lookupKey ros2_subscribers topic_name with
  | some t2 => some t2
  | none =>
    if bridge_all_1to2_topics then env.get_1to2_mapping ros1_type_name else none

/-- One iteration of the 1to2 creation loop (lines 189–250) for the publisher
`pub = (topic_name, ros1_type_name)`. -/
def handle1to2 (env : Env) (ros2_subscribers : List (String × String))
    (bridge_all_1to2_topics : Bool) (pub : String × String)
    (bridges_1to2 : List (String × TopicBridgeEntry)) :
    List (String × TopicBridgeEntry) × List Event :=
  match desired1to2 env ros2_subscribers bridge_all_1to2_topics pub.2 pub.1 with
  | none => (bridges_1to2, [])
  | some t2 =>
    match lookupKey bridges_1to2 pub.1 with
    | some bridge =>
      if bridge.ros1_type_name = pub.2 ∧ bridge.ros2_type_name = t2 then
        (bridges_1to2, [])
      else
        let b := eraseKey bridges_1to2 pub.1
        if env.create_1to2_ok pub.1 pub.2 t2 then
          (setKey b pub.1 ⟨pub.2, t2⟩,
           [Event.eraseTopic1to2 pub.1, Event.createTopic1to2 pub.1 pub.2 t2])
        else (b, [Event.eraseTopic1to2 pub.1, Event.createTopic1to2 pub.1 pub.2 t2])
    | none =>
      if env.create_1to2_ok pub.1 pub.2 t2 then
        (setKey bridges_1to2 pub.1 ⟨pub.2, t2⟩, [Event.createTopic1to2 pub.1 pub.2 t2])
      else (bridges_1to2, [Event.createTopic1to2 pub.1 pub.2 t2])

def pass1to2 (env : Env) (ros2_subscribers : List (String × String))
    (bridge_all_1to2_topics : Bool) :
    List (String × String) → List (String × TopicBridgeEntry) →
      List (String × TopicBridgeEntry) × List Event
  | [], bridges_1to2 => (bridges_1to2, [])
  | pub :: rest, bridges_1to2 =>
    let r := handle1to2 env ros2_subscribers bridge_all_1to2_topics pub bridges_1to2
    let r' := pass1to2 env ros2_subscribers bridge_all_1to2_topics rest r.1
    (r'.1, r.2 ++ r'.2)

/-- Desired ROS 1 type for a 2to1 candidate (lines 259–275). -/
def desired2to1 (env : Env) (ros1_subscribers : List (String × String))
    (bridge_all_2to1_topics : Bool) (ros2_type_name : String) (topic_name : String) :
    Option String :=
  match lookupKey ros1_subscribers topic_name with
  | some t1 => some t1
  | none =>
    if bridge_all_2to1_topics then env.get_2to1_mapping ros2_type_name else none

/-- One iteration of the 2to1 creation loop (lines 253–315) for the publisher
`pub = (topic_name, ros2_type_name)`.  Note the looser staleness test of lines
281–282: the recorded ROS 1 type may also be the empty string. -/
def handle2to1 (env : Env) (ros1_subscribers : List (String × String))
    (bridge_all_2to1_topics : Bool) (pub : String × String)
    (bridges_2to1 : List (String × TopicBridgeEntry)) :
    List (String × TopicBridgeEntry) × List Event :=
  match desired2to1 env ros1_subscribers bridge_all_2to1_topics pub.2 pub.1 with
  | none => (bridges_2to1, [])
  | some t1 =>
    match lookupKey bridges_2to1 pub.1 with
    | some bridge =>
      if (bridge.ros1_type_name = t1 ∨ bridge.ros1_type_name = "") ∧
          bridge.ros2_type_name = pub.2 then
        (bridges_2to1, [])
      else
        let b := eraseKey bridges_2to1 pub.1
        if env.create_2to1_ok pub.1 pub.2 t1 then
          (setKey b pub.1 ⟨t1, pub.2⟩,
           [Event.eraseTopic2to1 pub.1, Event.createTopic2to1 pub.1 pub.2 t1])
        else (b, [Event.eraseTopic2to1 pub.1, Event.createTopic2to1 pub.1 pub.2 t1])
    | none =>
      if env.create_2to1_ok pub.1 pub.2 t1 then
        (setKey bridges_2to1 pub.1 ⟨t1, pub.2⟩, [Event.createTopic2to1 pub.1 pub.2 t1])
      else (bridges_2to1, [Event.createTopic2to1 pub.1 pub.2 t1])

def pass2to1 (env : Env) (ros1_subscribers : List (String × String))
    (bridge_all_2to1_topics : Bool) :
    List (String × String) → List (String × TopicBridgeEntry) →
      List (String × TopicBridgeEntry) × List Event
  | [], bridges_2to1 => (bridges_2to1, [])
  | pub :: rest, bridges_2to1 =>
    let r := handle2to1 env ros1_subscribers bridge_all_2to1_topics pub bridges_2to1
    let r' := pass2to1 env ros1_subscribers bridge_all_2to1_topics rest r.1
    (r'.1, r.2 ++ r'.2)

/-- Service-bridge creation for ROS 1 services (lines 351–372): threads
`service_bridges_2_to_1`, reads `service_bridges_1_to_2`.  An insertion happens only
when the factory exists and construction does not throw (C++17 sequencing: the
right-hand side of `m[k] = f(...)` is evaluated before the insertion). -/
def svc_pass_ros1 (env : Env) :
    List (String × SvcDetails) → List String → List String → List String × List Event
  | [], _, service_bridges_2_to_1 => (service_bridges_2_to_1, [])
  | (name, details) :: rest, service_bridges_1_to_2, service_bridges_2_to_1 =>
    if name ∈ service_bridges_2_to_1 ∨ name ∈ service_bridges_1_to_2 then
      svc_pass_ros1 env rest service_bridges_1_to_2 service_bridges_2_to_1
    else if env.service_factory_exists "ros1" details.package details.name then
      if env.service_bridge_2_to_1_ok name then
        let r := svc_pass_ros1 env rest service_bridges_1_to_2
          (service_bridges_2_to_1 ++ [name])
        (r.1, Event.serviceFactoryLookup "ros1" details.package details.name ::
          Event.createService2to1 name :: r.2)
      else
        let r := svc_pass_ros1 env rest service_bridges_1_to_2 service_bridges_2_to_1
        (r.1, Event.serviceFactoryLookup "ros1" details.package details.name ::
          Event.createService2to1 name :: r.2)
    else
      let r := svc_pass_ros1 env rest service_bridges_1_to_2 service_bridges_2_to_1
      (r.1, Event.serviceFactoryLookup "ros1" details.package details.name :: r.2)

/-- Service-bridge creation for ROS 2 services (lines 375–396): threads
`service_bridges_1_to_2`, reads `service_bridges_2_to_1`. -/
def svc_pass_ros2 (env : Env) :
    List (String × SvcDetails) → List String → List String → List String × List Event
  | [], _, service_bridges_1_to_2 => (service_bridges_1_to_2, [])
  | (name, details) :: rest, service_bridges_2_to_1, service_bridges_1_to_2 =>
    if name ∈ service_bridges_1_to_2 ∨ name ∈ service_bridges_2_to_1 then
      svc_pass_ros2 env rest service_bridges_2_to_1 service_bridges_1_to_2
    else if env.service_factory_exists "ros2" details.package details.name then
      if env.service_bridge_1_to_2_ok name then
        let r := svc_pass_ros2 env rest service_bridges_2_to_1
          (service_bridges_1_to_2 ++ [name])
        (r.1, Event.serviceFactoryLookup "ros2" details.package details.name ::
          Event.createService1to2 name :: r.2)
      else
        let r := svc_pass_ros2 env rest service_bridges_2_to_1 service_bridges_1_to_2
        (r.1, Event.serviceFactoryLookup "ros2" details.package details.name ::
          Event.createService1to2 name :: r.2)
    else
      let r := svc_pass_ros2 env rest service_bridges_2_to_1 service_bridges_1_to_2
      (r.1, Event.serviceFactoryLookup "ros2" details.package details.name :: r.2)

/-- Removal of obsolete ROS 1 service bridges (lines 399–410).  The `try` block
contains only `service_bridges_2_to_1.erase(it)`, and `std::map::erase` does not
throw, so the loop is a plain filter. -/
def remove_obsolete_ros1_services (ros1_services : List (String × SvcDetails)) :
    List String → List String × List Event
  | [] => ([], [])
  | n :: rest =>
    let r := remove_obsolete_ros1_services ros1_services rest
    if (lookupKey ros1_services n).isSome then (n :: r.1, r.2)
    else (r.1, Event.eraseService2to1 n :: r.2)

/-- Removal of obsolete ROS 2 service bridges (lines 413–425).  Here the `try`
block runs `it->second.server.shutdown()` before the erase; if it throws, the
`catch` only logs and the loop re-tests the same iterator position, so the loop
need not terminate — hence the fuel parameter.  The `Bool` result tells whether the
loop reached the end of the map within the given fuel. -/
def remove_obsolete_ros2_services (env : Env) (ros2_services : List (String × SvcDetails)) :
    Nat → List String → List String × List Event × Bool
  | _, [] => ([], [], true)
  | 0, l => (l, [], false)
  | fuel + 1, n :: rest =>
    if (lookupKey ros2_services n).isSome then
      let r := remove_obsolete_ros2_services env ros2_services fuel rest
      (n :: r.1, r.2.1, r.2.2)
    else if env.shutdown_ok n then
      let r := remove_obsolete_ros2_services env ros2_services fuel rest
      (r.1, Event.eraseService1to2 n :: r.2.1, r.2.2)
    else
      remove_obsolete_ros2_services env ros2_services fuel (n :: rest)

structure UpdateResult where
  state : BridgeState
  events : List Event
  completed : Bool
deriving DecidableEq

/-- Function `update_bridge` (lines 172–426): the six phases in program order.  `fuel`
bounds the iterations of the final removal loop (only relevant when a
`server.shutdown()` call throws); `completed` reports whether that loop finished. -/
def update_bridge (env : Env) (inv : Inventory)
    (bridge_all_1to2_topics bridge_all_2to1_topics : Bool) (fuel : Nat)
    (s : BridgeState) : UpdateResult :=
  let r1 := pass1to2 env inv.ros2_subscribers bridge_all_1to2_topics
    inv.ros1_publishers s.bridges_1to2
  let r2 := pass2to1 env inv.ros1_subscribers bridge_all_2to1_topics
    inv.ros2_publishers s.bridges_2to1
  let r3 := svc_pass_ros1 env inv.ros1_services s.service_bridges_1_to_2
    s.service_bridges_2_to_1
  let r4 := svc_pass_ros2 env inv.ros2_services r3.1 s.service_bridges_1_to_2
  let r5 := remove_obsolete_ros1_services inv.ros1_services r3.1
  let r6 := remove_obsolete_ros2_services env inv.ros2_services fuel r4.1
  ⟨⟨r1.1, r2.1, r6.1, r5.1⟩,
   r1.2 ++ r2.2 ++ r3.2 ++ r4.2 ++ r5.2 ++ r6.2.1,
   r6.2.2⟩

/-- One reconciliation cycle as seen by the registry: the inventory snapshot, the
two bridge-all flags and the removal-loop fuel of one `update_bridge` call. -/
structure PassInput where
  env : Env
  inv : Inventory
  bridge_all_1to2_topics : Bool
  bridge_all_2to1_topics : Bool
  fuel : Nat

def runPass (p : PassInput) (s : BridgeState) : BridgeState :=
  (update_bridge p.env p.inv p.bridge_all_1to2_topics p.bridge_all_2to1_topics p.fuel s).state

def runPasses (ps : List PassInput) (s : BridgeState) : BridgeState :=
  ps.foldl (fun t p => runPass p t) s

def emptyBridgeState : BridgeState := ⟨[], [], [], []⟩

/-! ### C6: staleness tests of the two topic passes -/

/-- Claim C6: with demand present in both directions and an existing entry for the
topic, the 2to1 pass keeps the entry (no erase, no factory call, registry
unchanged) exactly when its recorded ROS 2 type equals the desired one and its
recorded ROS 1 type equals the desired one or is the empty string, while the 1to2
pass keeps its entry exactly when both recorded types equal the desired pair. -/
theorem loose_type_equality_2to1 (env : Env)
    (ros1_subscribers ros2_subscribers : List (String × String)) (ball12 ball21 : Bool)
    (n t1 t2 : String) (b12 b21 : List (String × TopicBridgeEntry))
    (e1 e2 : TopicBridgeEntry)
    (h21 : lookupKey b21 n = some e2)
    (hs1 : lookupKey ros1_subscribers n = some t1)
    (h12 : lookupKey b12 n = some e1)
    (hs2 : lookupKey ros2_subscribers n = some t2) :
    (handle2to1 env ros1_subscribers ball21 (n, t2) b21 = (b21, []) ↔
      (e2.ros1_type_name = t1 ∨ e2.ros1_type_name = "") ∧ e2.ros2_type_name = t2) ∧
    (handle1to2 env ros2_subscribers ball12 (n, t1) b12 = (b12, []) ↔
      e1.ros1_type_name = t1 ∧ e1.ros2_type_name = t2) := by
  constructor
  · unfold handle2to1 desired2to1
    simp only [hs1, h21]
    by_cases hc : (e2.ros1_type_name = t1 ∨ e2.ros1_type_name = "") ∧ e2.ros2_type_name = t2
    · simp [hc]
    · simp only [if_neg hc]
      by_cases hcr : env.create_2to1_ok n t2 t1 <;> simp [hcr, hc]
  · unfold handle1to2 desired1to2
    simp only [hs2, h12]
    by_cases hc : e1.ros1_type_name = t1 ∧ e1.ros2_type_name = t2
    · simp [hc]
    · simp only [if_neg hc]
      by_cases hcr : env.create_1to2_ok n t1 t2 <;> simp [hcr, hc]

/-- All-succeeding oracle used by witnesses. -/
def envW : Env :=
  ⟨fun _ => none, fun _ => none, fun _ _ _ => true, fun _ _ _ => true,
   fun _ _ _ => true, fun _ => true, fun _ => true, fun _ => true⟩

/-- Witness for C6: the 2to1 entry recorded the empty ROS 1 type (unknown-type
subscriber) and is kept; the 1to2 entry matches exactly and is kept. -/
theorem loose_type_equality_2to1_witness :
    (lookupKey [("/cmd", (⟨"", "T2"⟩ : TopicBridgeEntry))] "/cmd" =
        some (⟨"", "T2"⟩ : TopicBridgeEntry)) ∧
    (lookupKey [("/cmd", "T1")] "/cmd" = some "T1") ∧
    (lookupKey [("/cmd", (⟨"T1", "T2"⟩ : TopicBridgeEntry))] "/cmd" =
        some (⟨"T1", "T2"⟩ : TopicBridgeEntry)) ∧
    (lookupKey [("/cmd", "T2")] "/cmd" = some "T2") ∧
    ((handle2to1 envW [("/cmd", "T1")] false ("/cmd", "T2")
          [("/cmd", (⟨"", "T2"⟩ : TopicBridgeEntry))] =
        ([("/cmd", (⟨"", "T2"⟩ : TopicBridgeEntry))], []) ↔
      ((TopicBridgeEntry.mk "" "T2").ros1_type_name = "T1" ∨
        (TopicBridgeEntry.mk "" "T2").ros1_type_name = "") ∧
        (TopicBridgeEntry.mk "" "T2").ros2_type_name = "T2") ∧
    (handle1to2 envW [("/cmd", "T2")] false ("/cmd", "T1")
          [("/cmd", (⟨"T1", "T2"⟩ : TopicBridgeEntry))] =
        ([("/cmd", (⟨"T1", "T2"⟩ : TopicBridgeEntry))], []) ↔
      (TopicBridgeEntry.mk "T1" "T2").ros1_type_name = "T1" ∧
        (TopicBridgeEntry.mk "T1" "T2").ros2_type_name = "T2")) :=
  ⟨by decide, by decide, by decide, by decide,
   loose_type_equality_2to1 envW [("/cmd", "T1")] [("/cmd", "T2")] false false
     "/cmd" "T1" "T2" [("/cmd", ⟨"T1", "T2"⟩)] [("/cmd", ⟨"", "T2"⟩)]
     ⟨"T1", "T2"⟩ ⟨"", "T2"⟩ (by decide) (by decide) (by decide) (by decide)⟩

/-! ### C3: service-bridge removal -/

/-- Oracle in which `server.shutdown()` throws for the service "/a" and every
other external call succeeds. -/
def env3 : Env :=
  ⟨fun _ => none, fun _ => none, fun _ _ _ => true, fun _ _ _ => true,
   fun _ _ _ => true, fun _ => true, fun _ => true, fun n => !(n == "/a")⟩

def emptyInv : Inventory := ⟨[], [], [], [], [], []⟩

def s3 : BridgeState := ⟨[], [], ["/a", "/b"], []⟩

theorem remove_stall (fuel : Nat) :
    remove_obsolete_ros2_services env3 [] fuel ["/a", "/b"] = (["/a", "/b"], [], false) := by
  induction fuel with
  | zero => rfl
  | succ k ih => simpa [remove_obsolete_ros2_services, env3, lookupKey] using ih

/-- Claim C3 evaluation at the failing input: `service_bridges_1_to_2` holds "/a"
and "/b", `ros2_services` is empty, and `shutdown()` of "/a" throws.  The catch
(lines 419–421) logs without advancing the iterator, so the loop re-attempts "/a"
forever: no matter the fuel, "/b" is never removed (it stays registered although
absent from the snapshot) and the pass never completes — contradicting the claim
that a failure while removing one entry does not prevent removal of subsequent
entries. -/
theorem service_removal_failure_stalls (fuel : Nat) :
    update_bridge env3 emptyInv false false fuel s3 = ⟨s3, [], false⟩ ∧
    "/b" ∈ (update_bridge env3 emptyInv false false fuel s3).state.service_bridges_1_to_2 := by
  have h := remove_stall fuel
  have heq : update_bridge env3 emptyInv false false fuel s3 = ⟨s3, [], false⟩ := by
    simp [update_bridge, emptyInv, s3, pass1to2, pass2to1, svc_pass_ros1, svc_pass_ros2,
      remove_obsolete_ros1_services, h]
  exact ⟨heq, by rw [heq]; decide⟩

/-! ### C4: the two service maps never share a key -/

theorem svc_pass_ros1_mem (env : Env) (svcs : List (String × SvcDetails))
    (s12 : List String) :
    ∀ s21 x, x ∈ (svc_pass_ros1 env svcs s12 s21).1 → x ∈ s21 ∨ x ∉ s12 := by
  induction svcs with
  | nil =>
    intro s21 x hx
    exact Or.inl hx
  | cons sv rest ih =>
    obtain ⟨name, details⟩ := sv
    intro s21 x hx
    by_cases hc : name ∈ s21 ∨ name ∈ s12
    · simp only [svc_pass_ros1, if_pos hc] at hx
      exact ih s21 x hx
    · simp only [svc_pass_ros1, if_neg hc] at hx
      by_cases hf : env.service_factory_exists "ros1" details.package details.name
      · simp only [if_pos hf] at hx
        by_cases hk : env.service_bridge_2_to_1_ok name
        · simp only [if_pos hk] at hx
          rcases ih (s21 ++ [name]) x hx with hmem | hns
          · rcases List.mem_append.mp hmem with hmem' | hmem'
            · exact Or.inl hmem'
            · have : x = name := by simpa using hmem'
              subst this
              exact Or.inr (fun hx12 => hc (Or.inr hx12))
          · exact Or.inr hns
        · simp only [if_neg hk] at hx
          exact ih s21 x hx
      · simp only [if_neg hf] at hx
        exact ih s21 x hx

theorem svc_pass_ros2_mem (env : Env) (svcs : List (String × SvcDetails))
    (s21 : List String) :
    ∀ s12 x, x ∈ (svc_pass_ros2 env svcs s21 s12).1 → x ∈ s12 ∨ x ∉ s21 := by
  induction svcs with
  | nil =>
    intro s12 x hx
    exact Or.inl hx
  | cons sv rest ih =>
    obtain ⟨name, details⟩ := sv
    intro s12 x hx
    by_cases hc : name ∈ s12 ∨ name ∈ s21
    · simp only [svc_pass_ros2, if_pos hc] at hx
      exact ih s12 x hx
    · simp only [svc_pass_ros2, if_neg hc] at hx
      by_cases hf : env.service_factory_exists "ros2" details.package details.name
      · simp only [if_pos hf] at hx
        by_cases hk : env.service_bridge_1_to_2_ok name
        · simp only [if_pos hk] at hx
          rcases ih (s12 ++ [name]) x hx with hmem | hns
          · rcases List.mem_append.mp hmem with hmem' | hmem'
            · exact Or.inl hmem'
            · have : x = name := by simpa using hmem'
              subst this
              exact Or.inr (fun hx21 => hc (Or.inr hx21))
          · exact Or.inr hns
        · simp only [if_neg hk] at hx
          exact ih s12 x hx
      · simp only [if_neg hf] at hx
        exact ih s12 x hx

theorem remove_obsolete_ros1_services_subset (svcs : List (String × SvcDetails)) :
    ∀ l x, x ∈ (remove_obsolete_ros1_services svcs l).1 → x ∈ l := by
  intro l
  induction l with
  | nil => intro x hx; simp [remove_obsolete_ros1_services] at hx
  | cons n rest ih =>
    intro x hx
    by_cases hs : (lookupKey svcs n).isSome
    · simp only [remove_obsolete_ros1_services, if_pos hs] at hx
      rcases List.mem_cons.mp hx with rfl | hx'
      · exact List.mem_cons_self _ _
      · exact List.mem_cons_of_mem _ (ih x hx')
    · simp only [remove_obsolete_ros1_services, if_neg hs] at hx
      exact List.mem_cons_of_mem _ (ih x hx)

theorem remove_obsolete_ros2_services_subset (env : Env)
    (svcs : List (String × SvcDetails)) :
    ∀ fuel l x, x ∈ (remove_obsolete_ros2_services env svcs fuel l).1 → x ∈ l := by
  intro fuel
  induction fuel with
  | zero =>
    intro l x hx
    cases l with
    | nil => simp [remove_obsolete_ros2_services] at hx
    | cons n rest => simpa [remove_obsolete_ros2_services] using hx
  | succ k ih =>
    intro l x hx
    cases l with
    | nil => simp [remove_obsolete_ros2_services] at hx
    | cons n rest =>
      by_cases hs : (lookupKey svcs n).isSome
      · simp only [remove_obsolete_ros2_services, if_pos hs] at hx
        rcases List.mem_cons.mp hx with rfl | hx'
        · exact List.mem_cons_self _ _
        · exact List.mem_cons_of_mem _ (ih rest x hx')
      · simp only [remove_obsolete_ros2_services, if_neg hs] at hx
        by_cases hk : env.shutdown_ok n
        · simp only [if_pos hk] at hx
          exact List.mem_cons_of_mem _ (ih rest x hx)
        · simp only [if_neg hk] at hx
          exact ih (n :: rest) x hx

def svcDisjoint (s : BridgeState) : Bool :=
  s.service_bridges_1_to_2.all fun n => decide (n ∉ s.service_bridges_2_to_1)

theorem svcDisjoint_runPass (p : PassInput) (s : BridgeState)
    (h : ∀ n ∈ s.service_bridges_1_to_2, n ∉ s.service_bridges_2_to_1) :
    ∀ n ∈ (runPass p s).service_bridges_1_to_2,
      n ∉ (runPass p s).service_bridges_2_to_1 := by
  intro n hn hn'
  have h12 : n ∈ (svc_pass_ros2 p.env p.inv.ros2_services
      (svc_pass_ros1 p.env p.inv.ros1_services s.service_bridges_1_to_2
        s.service_bridges_2_to_1).1 s.service_bridges_1_to_2).1 :=
    remove_obsolete_ros2_services_subset p.env p.inv.ros2_services p.fuel _ n hn
  have h21 : n ∈ (svc_pass_ros1 p.env p.inv.ros1_services s.service_bridges_1_to_2
      s.service_bridges_2_to_1).1 :=
    remove_obsolete_ros1_services_subset p.inv.ros1_services _ n hn'
  rcases svc_pass_ros2_mem p.env p.inv.ros2_services _ s.service_bridges_1_to_2 n h12 with
    hins | hnotin
  · rcases svc_pass_ros1_mem p.env p.inv.ros1_services s.service_bridges_1_to_2
      s.service_bridges_2_to_1 n h21 with hin21 | hnot12
    · exact h n hins hin21
    · exact hnot12 hins
  · exact hnotin h21

/-- Claim C4: starting from empty registries, after any sequence of
`update_bridge` passes no service name is registered in both
`service_bridges_1_to_2` and `service_bridges_2_to_1`. -/
theorem service_direction_mutual_exclusion (ps : List PassInput) :
    svcDisjoint (runPasses ps emptyBridgeState) = true := by
  have key : ∀ (qs : List PassInput) (s : BridgeState),
      (∀ n ∈ s.service_bridges_1_to_2, n ∉ s.service_bridges_2_to_1) →
      ∀ n ∈ (runPasses qs s).service_bridges_1_to_2,
        n ∉ (runPasses qs s).service_bridges_2_to_1 := by
    intro qs
    induction qs with
    | nil => intro s hs; exact hs
    | cons q rest ih =>
      intro s hs
      exact ih (runPass q s) (svcDisjoint_runPass q s hs)
  have h := key ps emptyBridgeState (by intro n hn; cases hn)
  simpa [svcDisjoint, List.all_eq_true] using h

/-! ### C2: topic bridges are never proactively removed -/

theorem handle1to2_lookup_other (env : Env) (subs : List (String × String)) (ball : Bool)
    (pub : String × String) (b : List (String × TopicBridgeEntry)) (n : String)
    (h : pub.1 ≠ n) :
    lookupKey (handle1to2 env subs ball pub b).1 n = lookupKey b n := by
  unfold handle1to2
  cases hd : desired1to2 env subs ball pub.2 pub.1 with
  | none => rfl
  | some t2 =>
    simp only [hd]
    cases hl : lookupKey b pub.1 with
    | some bridge =>
      simp only [hl]
      by_cases hc : bridge.ros1_type_name = pub.2 ∧ bridge.ros2_type_name = t2
      · simp [hc]
      · simp only [if_neg hc]
        by_cases hcr : env.create_1to2_ok pub.1 pub.2 t2
        · simp [hcr, lookupKey_setKey_ne _ _ _ _ h, lookupKey_eraseKey_ne _ _ _ h]
        · simp [hcr, lookupKey_eraseKey_ne _ _ _ h]
    | none =>
      simp only [hl]
      by_cases hcr : env.create_1to2_ok pub.1 pub.2 t2
      · simp [hcr, lookupKey_setKey_ne _ _ _ _ h]
      · simp [hcr]

theorem handle1to2_skip (env : Env) (subs : List (String × String)) (ball : Bool)
    (pub : String × String) (b : List (String × TopicBridgeEntry)) (e : TopicBridgeEntry)
    (hb : lookupKey b pub.1 = some e)
    (hk : ∀ t2, desired1to2 env subs ball pub.2 pub.1 = some t2 →
      e.ros1_type_name = pub.2 ∧ e.ros2_type_name = t2) :
    handle1to2 env subs ball pub b = (b, []) := by
  unfold handle1to2
  cases hd : desired1to2 env subs ball pub.2 pub.1 with
  | none => rfl
  | some t2 =>
    simp only [hd, hb]
    simp [hk t2 hd]

theorem pass1to2_lookup_preserved (env : Env) (subs : List (String × String)) (ball : Bool)
    (pubs : List (String × String)) :
    ∀ b e n, lookupKey b n = some e →
      (∀ pr ∈ pubs, pr.1 = n →
        ∀ t2, desired1to2 env subs ball pr.2 n = some t2 →
          e.ros1_type_name = pr.2 ∧ e.ros2_type_name = t2) →
      lookupKey (pass1to2 env subs ball pubs b).1 n = some e := by
  induction pubs with
  | nil =>
    intro b e n hb _
    exact hb
  | cons pub rest ih =>
    intro b e n hb hk
    by_cases hp : pub.1 = n
    · have hskip : handle1to2 env subs ball pub b = (b, []) := by
        refine handle1to2_skip env subs ball pub b e (by rw [hp]; exact hb) ?_
        intro t2 hd
        exact hk pub (List.mem_cons_self _ _) hp t2 (by rw [← hp]; exact hd)
      simp only [pass1to2, hskip]
      exact ih b e n hb (fun pr hpr => hk pr (List.mem_cons_of_mem _ hpr))
    · have hother := handle1to2_lookup_other env subs ball pub b n hp
      simp only [pass1to2]
      exact ih _ e n (hother.trans hb) (fun pr hpr => hk pr (List.mem_cons_of_mem _ hpr))

theorem pass1to2_lookup_frame (env : Env) (subs : List (String × String)) (ball : Bool)
    (pubs : List (String × String)) :
    ∀ b n, (∀ pr ∈ pubs, pr.1 ≠ n) →
      lookupKey (pass1to2 env subs ball pubs b).1 n = lookupKey b n := by
  induction pubs with
  | nil =>
    intro b n _
    rfl
  | cons pub rest ih =>
    intro b n hk
    have hother := handle1to2_lookup_other env subs ball pub b n
      (hk pub (List.mem_cons_self _ _))
    simp only [pass1to2]
    exact (ih _ n (fun pr hpr => hk pr (List.mem_cons_of_mem _ hpr))).trans hother

theorem handle2to1_lookup_other (env : Env) (subs : List (String × String)) (ball : Bool)
    (pub : String × String) (b : List (String × TopicBridgeEntry)) (n : String)
    (h : pub.1 ≠ n) :
    lookupKey (handle2to1 env subs ball pub b).1 n = lookupKey b n := by
  unfold handle2to1
  cases hd : desired2to1 env subs ball pub.2 pub.1 with
  | none => rfl
  | some t1 =>
    simp only [hd]
    cases hl : lookupKey b pub.1 with
    | some bridge =>
      simp only [hl]
      by_cases hc : (bridge.ros1_type_name = t1 ∨ bridge.ros1_type_name = "") ∧
          bridge.ros2_type_name = pub.2
      · simp [hc]
      · simp only [if_neg hc]
        by_cases hcr : env.create_2to1_ok pub.1 pub.2 t1
        · simp [hcr, lookupKey_setKey_ne _ _ _ _ h, lookupKey_eraseKey_ne _ _ _ h]
        · simp [hcr, lookupKey_eraseKey_ne _ _ _ h]
    | none =>
      simp only [hl]
      by_cases hcr : env.create_2to1_ok pub.1 pub.2 t1
      · simp [hcr, lookupKey_setKey_ne _ _ _ _ h]
      · simp [hcr]

theorem handle2to1_skip (env : Env) (subs : List (String × String)) (ball : Bool)
    (pub : String × String) (b : List (String × TopicBridgeEntry)) (e : TopicBridgeEntry)
    (hb : lookupKey b pub.1 = some e)
    (hk : ∀ t1, desired2to1 env subs ball pub.2 pub.1 = some t1 →
      (e.ros1_type_name = t1 ∨ e.ros1_type_name = "") ∧ e.ros2_type_name = pub.2) :
    handle2to1 env subs ball pub b = (b, []) := by
  unfold handle2to1
  cases hd : desired2to1 env subs ball pub.2 pub.1 with
  | none => rfl
  | some t1 =>
    simp only [hd, hb]
    simp [hk t1 hd]

theorem pass2to1_lookup_preserved (env : Env) (subs : List (String × String)) (ball : Bool)
    (pubs : List (String × String)) :
    ∀ b e n, lookupKey b n = some e →
      (∀ pr ∈ pubs, pr.1 = n →
        ∀ t1, desired2to1 env subs ball pr.2 n = some t1 →
          (e.ros1_type_name = t1 ∨ e.ros1_type_name = "") ∧ e.ros2_type_name = pr.2) →
      lookupKey (pass2to1 env subs ball pubs b).1 n = some e := by
  induction pubs with
  | nil =>
    intro b e n hb _
    exact hb
  | cons pub rest ih =>
    intro b e n hb hk
    by_cases hp : pub.1 = n
    · have hskip : handle2to1 env subs ball pub b = (b, []) := by
        refine handle2to1_skip env subs ball pub b e (by rw [hp]; exact hb) ?_
        intro t1 hd
        exact hk pub (List.mem_cons_self _ _) hp t1 (by rw [← hp]; exact hd)
      simp only [pass2to1, hskip]
      exact ih b e n hb (fun pr hpr => hk pr (List.mem_cons_of_mem _ hpr))
    · have hother := handle2to1_lookup_other env subs ball pub b n hp
      simp only [pass2to1]
      exact ih _ e n (hother.trans hb) (fun pr hpr => hk pr (List.mem_cons_of_mem _ hpr))

theorem pass2to1_lookup_frame (env : Env) (subs : List (String × String)) (ball : Bool)
    (pubs : List (String × String)) :
    ∀ b n, (∀ pr ∈ pubs, pr.1 ≠ n) →
      lookupKey (pass2to1 env subs ball pubs b).1 n = lookupKey b n := by
  induction pubs with
  | nil =>
    intro b n _
    rfl
  | cons pub rest ih =>
    intro b n hk
    have hother := handle2to1_lookup_other env subs ball pub b n
      (hk pub (List.mem_cons_self _ _))
    simp only [pass2to1]
    exact (ih _ n (fun pr hpr => hk pr (List.mem_cons_of_mem _ hpr))).trans hother

theorem update_bridge_b12 (env : Env) (inv : Inventory) (b1 b2 : Bool) (fuel : Nat)
    (s : BridgeState) :
    (update_bridge env inv b1 b2 fuel s).state.bridges_1to2 =
      (pass1to2 env inv.ros2_subscribers b1 inv.ros1_publishers s.bridges_1to2).1 := rfl

theorem update_bridge_b21 (env : Env) (inv : Inventory) (b1 b2 : Bool) (fuel : Nat)
    (s : BridgeState) :
    (update_bridge env inv b1 b2 fuel s).state.bridges_2to1 =
      (pass2to1 env inv.ros1_subscribers b2 inv.ros2_publishers s.bridges_2to1).1 := rfl

/-- Claim C2: a topic name keyed in neither domain's publisher snapshot is never
touched by any number of further passes (its entries in both topic maps are
unchanged — in particular an existing bridge is never removed when demand
disappears); moreover, within one pass an existing entry survives unless some
publisher for that very name yields a desired type pair failing the staleness
test — the type-change replacement path is the only erasing path. -/
theorem topic_bridges_persist (n : String) (s : BridgeState) (ps : List PassInput)
    (h1 : ∀ p ∈ ps, ∀ pr ∈ p.inv.ros1_publishers, pr.1 ≠ n)
    (h2 : ∀ p ∈ ps, ∀ pr ∈ p.inv.ros2_publishers, pr.1 ≠ n) :
    (lookupKey (runPasses ps s).bridges_1to2 n = lookupKey s.bridges_1to2 n ∧
     lookupKey (runPasses ps s).bridges_2to1 n = lookupKey s.bridges_2to1 n) ∧
    (∀ (p : PassInput) (e : TopicBridgeEntry),
      lookupKey s.bridges_1to2 n = some e →
      (∀ pr ∈ p.inv.ros1_publishers, pr.1 = n →
        ∀ t2, desired1to2 p.env p.inv.ros2_subscribers p.bridge_all_1to2_topics pr.2 n =
            some t2 →
          e.ros1_type_name = pr.2 ∧ e.ros2_type_name = t2) →
      lookupKey (runPass p s).bridges_1to2 n = some e) ∧
    (∀ (p : PassInput) (e : TopicBridgeEntry),
      lookupKey s.bridges_2to1 n = some e →
      (∀ pr ∈ p.inv.ros2_publishers, pr.1 = n →
        ∀ t1, desired2to1 p.env p.inv.ros1_subscribers p.bridge_all_2to1_topics pr.2 n =
            some t1 →
          (e.ros1_type_name = t1 ∨ e.ros1_type_name = "") ∧ e.ros2_type_name = pr.2) →
      lookupKey (runPass p s).bridges_2to1 n = some e) := by
  refine ⟨?_, ?_, ?_⟩
  · induction ps generalizing s with
    | nil => exact ⟨rfl, rfl⟩
    | cons p rest ih =>
      have e12 : lookupKey (runPass p s).bridges_1to2 n = lookupKey s.bridges_1to2 n := by
        rw [runPass, update_bridge_b12]
        exact pass1to2_lookup_frame _ _ _ _ _ n (h1 p (List.mem_cons_self _ _))
      have e21 : lookupKey (runPass p s).bridges_2to1 n = lookupKey s.bridges_2to1 n := by
        rw [runPass, update_bridge_b21]
        exact pass2to1_lookup_frame _ _ _ _ _ n (h2 p (List.mem_cons_self _ _))
      have hrest := ih (runPass p s)
        (fun q hq => h1 q (List.mem_cons_of_mem _ hq))
        (fun q hq => h2 q (List.mem_cons_of_mem _ hq))
      have hfold : runPasses (p :: rest) s = runPasses rest (runPass p s) := rfl
      rw [hfold]
      exact ⟨hrest.1.trans e12, hrest.2.trans e21⟩
  · intro p e hb hk
    rw [runPass, update_bridge_b12]
    exact pass1to2_lookup_preserved _ _ _ _ _ e n hb hk
  · intro p e hb hk
    rw [runPass, update_bridge_b21]
    exact pass2to1_lookup_preserved _ _ _ _ _ e n hb hk

def invEmptyPub : Inventory := ⟨[], [], [], [("/scan", "T2")], [], []⟩

def sC2 : BridgeState := ⟨[("/scan", ⟨"T1", "T2"⟩)], [("/scan", ⟨"T1", "T2"⟩)], [], []⟩

def psC2 : List PassInput := [⟨envW, invEmptyPub, false, false, 0⟩]

/-- Witness for C2: one pass whose inventory lists no publisher at all for "/scan"
(only a stale subscriber); both existing topic entries survive. -/
theorem topic_bridges_persist_witness :
    (∀ p ∈ psC2, ∀ pr ∈ p.inv.ros1_publishers, pr.1 ≠ "/scan") ∧
    (∀ p ∈ psC2, ∀ pr ∈ p.inv.ros2_publishers, pr.1 ≠ "/scan") ∧
    ((lookupKey (runPasses psC2 sC2).bridges_1to2 "/scan" =
        lookupKey sC2.bridges_1to2 "/scan" ∧
      lookupKey (runPasses psC2 sC2).bridges_2to1 "/scan" =
        lookupKey sC2.bridges_2to1 "/scan") ∧
    (∀ (p : PassInput) (e : TopicBridgeEntry),
      lookupKey sC2.bridges_1to2 "/scan" = some e →
      (∀ pr ∈ p.inv.ros1_publishers, pr.1 = "/scan" →
        ∀ t2, desired1to2 p.env p.inv.ros2_subscribers p.bridge_all_1to2_topics pr.2 "/scan" =
            some t2 →
          e.ros1_type_name = pr.2 ∧ e.ros2_type_name = t2) →
      lookupKey (runPass p sC2).bridges_1to2 "/scan" = some e) ∧
    (∀ (p : PassInput) (e : TopicBridgeEntry),
      lookupKey sC2.bridges_2to1 "/scan" = some e →
      (∀ pr ∈ p.inv.ros2_publishers, pr.1 = "/scan" →
        ∀ t1, desired2to1 p.env p.inv.ros1_subscribers p.bridge_all_2to1_topics pr.2 "/scan" =
            some t1 →
          (e.ros1_type_name = t1 ∨ e.ros1_type_name = "") ∧ e.ros2_type_name = pr.2) →
      lookupKey (runPass p sC2).bridges_2to1 "/scan" = some e)) :=
  ⟨by decide, by decide,
   topic_bridges_persist "/scan" sC2 psC2 (by decide) (by decide)⟩

/-! ### C5: exactly one erase followed by one creation attempt on a type change -/

/-- Recognises the 1to2-topic events (erase or factory attempt) for topic `n`. -/
def isTopic1to2EventFor (n : String) : Event → Bool
  | Event.createTopic1to2 m _ _ => m == n
  | Event.eraseTopic1to2 m => m == n
  | _ => false

theorem handle1to2_filter_other (env : Env) (subs : List (String × String)) (ball : Bool)
    (pub : String × String) (b : List (String × TopicBridgeEntry)) (n : String)
    (h : pub.1 ≠ n) :
    (handle1to2 env subs ball pub b).2.filter (isTopic1to2EventFor n) = [] := by
  unfold handle1to2
  cases hd : desired1to2 env subs ball pub.2 pub.1 with
  | none => rfl
  | some t2 =>
    simp only [hd]
    cases hl : lookupKey b pub.1 with
    | some bridge =>
      simp only [hl]
      by_cases hc : bridge.ros1_type_name = pub.2 ∧ bridge.ros2_type_name = t2
      · simp [hc]
      · simp only [if_neg hc]
        by_cases hcr : env.create_1to2_ok pub.1 pub.2 t2 <;>
          simp [hcr, isTopic1to2EventFor, h]
    | none =>
      simp only [hl]
      by_cases hcr : env.create_1to2_ok pub.1 pub.2 t2 <;>
        simp [hcr, isTopic1to2EventFor, h]

theorem pass1to2_filter_none (env : Env) (subs : List (String × String)) (ball : Bool)
    (pubs : List (String × String)) (n : String) (hk : ∀ pr ∈ pubs, pr.1 ≠ n) :
    ∀ b, (pass1to2 env subs ball pubs b).2.filter (isTopic1to2EventFor n) = [] := by
  induction pubs with
  | nil =>
    intro b
    rfl
  | cons pub rest ih =>
    intro b
    simp only [pass1to2, List.filter_append]
    rw [handle1to2_filter_other env subs ball pub b n (hk pub (List.mem_cons_self _ _)),
      ih (fun pr hpr => hk pr (List.mem_cons_of_mem _ hpr)) _]
    rfl

theorem handle2to1_filter_12 (env : Env) (subs : List (String × String)) (ball : Bool)
    (pub : String × String) (b : List (String × TopicBridgeEntry)) (n : String) :
    (handle2to1 env subs ball pub b).2.filter (isTopic1to2EventFor n) = [] := by
  unfold handle2to1
  cases hd : desired2to1 env subs ball pub.2 pub.1 with
  | none => rfl
  | some t1 =>
    simp only [hd]
    cases hl : lookupKey b pub.1 with
    | some bridge =>
      simp only [hl]
      by_cases hc : (bridge.ros1_type_name = t1 ∨ bridge.ros1_type_name = "") ∧
          bridge.ros2_type_name = pub.2
      · simp [hc]
      · simp only [if_neg hc]
        by_cases hcr : env.create_2to1_ok pub.1 pub.2 t1 <;>
          simp [hcr, isTopic1to2EventFor]
    | none =>
      simp only [hl]
      by_cases hcr : env.create_2to1_ok pub.1 pub.2 t1 <;>
        simp [hcr, isTopic1to2EventFor]

theorem pass2to1_filter_12 (env : Env) (subs : List (String × String)) (ball : Bool)
    (pubs : List (String × String)) (n : String) :
    ∀ b, (pass2to1 env subs ball pubs b).2.filter (isTopic1to2EventFor n) = [] := by
  induction pubs with
  | nil =>
    intro b
    rfl
  | cons pub rest ih =>
    intro b
    simp only [pass2to1, List.filter_append]
    rw [handle2to1_filter_12 env subs ball pub b n, ih _]
    rfl

theorem svc_pass_ros1_filter_12 (env : Env) (svcs : List (String × SvcDetails)) (n : String) :
    ∀ s12 s21, (svc_pass_ros1 env svcs s12 s21).2.filter (isTopic1to2EventFor n) = [] := by
  induction svcs with
  | nil =>
    intro s12 s21
    rfl
  | cons sv rest ih =>
    obtain ⟨name, details⟩ := sv
    intro s12 s21
    by_cases hc : name ∈ s21 ∨ name ∈ s12
    · simp only [svc_pass_ros1, if_pos hc]
      exact ih s12 s21
    · simp only [svc_pass_ros1, if_neg hc]
      by_cases hf : env.service_factory_exists "ros1" details.package details.name
      · by_cases hk : env.service_bridge_2_to_1_ok name
        · simp [if_pos hf, if_pos hk, isTopic1to2EventFor, ih]
        · simp [if_pos hf, if_neg hk, isTopic1to2EventFor, ih]
      · simp [if_neg hf, isTopic1to2EventFor, ih]

theorem svc_pass_ros2_filter_12 (env : Env) (svcs : List (String × SvcDetails)) (n : String) :
    ∀ s21 s12, (svc_pass_ros2 env svcs s21 s12).2.filter (isTopic1to2EventFor n) = [] := by
  induction svcs with
  | nil =>
    intro s21 s12
    rfl
  | cons sv rest ih =>
    obtain ⟨name, details⟩ := sv
    intro s21 s12
    by_cases hc : name ∈ s12 ∨ name ∈ s21
    · simp only [svc_pass_ros2, if_pos hc]
      exact ih s21 s12
    · simp only [svc_pass_ros2, if_neg hc]
      by_cases hf : env.service_factory_exists "ros2" details.package details.name
      · by_cases hk : env.service_bridge_1_to_2_ok name
        · simp [if_pos hf, if_pos hk, isTopic1to2EventFor, ih]
        · simp [if_pos hf, if_neg hk, isTopic1to2EventFor, ih]
      · simp [if_neg hf, isTopic1to2EventFor, ih]

theorem remove_ros1_filter_12 (svcs : List (String × SvcDetails)) (n : String) :
    ∀ l, (remove_obsolete_ros1_services svcs l).2.filter (isTopic1to2EventFor n) = [] := by
  intro l
  induction l with
  | nil => rfl
  | cons m rest ih =>
    by_cases hs : (lookupKey svcs m).isSome
    · simp only [remove_obsolete_ros1_services, if_pos hs]
      exact ih
    · simp only [remove_obsolete_ros1_services, if_neg hs]
      simp [isTopic1to2EventFor, ih]

theorem remove_ros2_filter_12 (env : Env) (svcs : List (String × SvcDetails)) (n : String) :
    ∀ fuel l,
      (remove_obsolete_ros2_services env svcs fuel l).2.1.filter (isTopic1to2EventFor n) = [] := by
  intro fuel
  induction fuel with
  | zero =>
    intro l
    cases l with
    | nil => rfl
    | cons m rest => rfl
  | succ k ih =>
    intro l
    cases l with
    | nil => rfl
    | cons m rest =>
      by_cases hs : (lookupKey svcs m).isSome
      · simp only [remove_obsolete_ros2_services, if_pos hs]
        exact ih rest
      · simp only [remove_obsolete_ros2_services, if_neg hs]
        by_cases hk : env.shutdown_ok m
        · simp only [if_pos hk]
          simp [isTopic1to2EventFor, ih rest]
        · simp only [if_neg hk]
          exact ih (m :: rest)

theorem handle1to2_typechange (env : Env) (subs : List (String × String)) (ball : Bool)
    (n Ta Tb Tb' : String) (b : List (String × TopicBridgeEntry))
    (hb : lookupKey b n = some ⟨Ta, Tb⟩) (hsub : lookupKey subs n = some Tb')
    (hne : Tb' ≠ Tb) :
    (handle1to2 env subs ball (n, Ta) b).2 =
      [Event.eraseTopic1to2 n, Event.createTopic1to2 n Ta Tb'] := by
  simp only [handle1to2, desired1to2, hsub, hb]
  have hc : ¬(True ∧ Tb = Tb') := fun h => hne h.2.symm
  simp only [if_neg hc]
  by_cases hcr : env.create_1to2_ok n Ta Tb' <;> simp [hcr]

theorem pass1to2_typechange (env : Env) (subs : List (String × String)) (ball : Bool)
    (pubs : List (String × String)) :
    ∀ b n Ta Tb Tb',
      lookupKey b n = some ⟨Ta, Tb⟩ →
      lookupKey pubs n = some Ta →
      (pubs.map Prod.fst).Nodup →
      lookupKey subs n = some Tb' →
      Tb' ≠ Tb →
      (pass1to2 env subs ball pubs b).2.filter (isTopic1to2EventFor n) =
        [Event.eraseTopic1to2 n, Event.createTopic1to2 n Ta Tb'] := by
  induction pubs with
  | nil =>
    intro b n Ta Tb Tb' _ hpub _ _ _
    simp [lookupKey] at hpub
  | cons pub rest ih =>
    intro b n Ta Tb Tb' hb hpub hnd hsub hne
    obtain ⟨m, t⟩ := pub
    by_cases hm : m = n
    · subst hm
      have ht : t = Ta := by simpa [lookupKey] using hpub
      subst ht
      have hhd := handle1to2_typechange env subs ball m t Tb Tb' b hb hsub hne
      have hrest : ∀ pr ∈ rest, pr.1 ≠ m := by
        intro pr hpr heq
        have : m ∈ rest.map Prod.fst := heq ▸ List.mem_map_of_mem Prod.fst hpr
        exact (List.nodup_cons.mp (by simpa using hnd)).1 this
      simp only [pass1to2, List.filter_append, hhd]
      rw [pass1to2_filter_none env subs ball rest m hrest _]
      simp [isTopic1to2EventFor]
    · have hother := handle1to2_lookup_other env subs ball (m, t) b n hm
      have hfilter := handle1to2_filter_other env subs ball (m, t) b n hm
      have hpub' : lookupKey rest n = some Ta := by
        simpa [lookupKey, hm] using hpub
      have hnd' : (rest.map Prod.fst).Nodup := (List.nodup_cons.mp (by simpa using hnd)).2
      simp only [pass1to2, List.filter_append, hfilter]
      rw [ih _ n Ta Tb Tb' (hother.trans hb) hpub' hnd' hsub hne]
      rfl

theorem update_bridge_events_eq (env : Env) (inv : Inventory) (b1 b2 : Bool) (fuel : Nat)
    (s : BridgeState) :
    (update_bridge env inv b1 b2 fuel s).events =
      (pass1to2 env inv.ros2_subscribers b1 inv.ros1_publishers s.bridges_1to2).2 ++
      (pass2to1 env inv.ros1_subscribers b2 inv.ros2_publishers s.bridges_2to1).2 ++
      (svc_pass_ros1 env inv.ros1_services s.service_bridges_1_to_2
        s.service_bridges_2_to_1).2 ++
      (svc_pass_ros2 env inv.ros2_services
        (svc_pass_ros1 env inv.ros1_services s.service_bridges_1_to_2
          s.service_bridges_2_to_1).1 s.service_bridges_1_to_2).2 ++
      (remove_obsolete_ros1_services inv.ros1_services
        (svc_pass_ros1 env inv.ros1_services s.service_bridges_1_to_2
          s.service_bridges_2_to_1).1).2 ++
      (remove_obsolete_ros2_services env inv.ros2_services fuel
        (svc_pass_ros2 env inv.ros2_services
          (svc_pass_ros1 env inv.ros1_services s.service_bridges_1_to_2
            s.service_bridges_2_to_1).1 s.service_bridges_1_to_2).1).2.1 := rfl

/-- Claim C5: when `bridges_1to2` records `(Ta, Tb)` for topic `n`, the inventory
still lists the ROS 1 publisher `(n, Ta)` (with unique topic keys) and the desired
ROS 2 type is `Tb' ≠ Tb`, one `update_bridge` pass emits, among all 1to2-topic
events for `n`, exactly one erase followed by exactly one creation attempt. -/
theorem type_change_replacement (env : Env) (inv : Inventory) (ball12 ball21 : Bool)
    (fuel : Nat) (s : BridgeState) (n Ta Tb Tb' : String)
    (hb : lookupKey s.bridges_1to2 n = some ⟨Ta, Tb⟩)
    (hpub : lookupKey inv.ros1_publishers n = some Ta)
    (hnd : (inv.ros1_publishers.map Prod.fst).Nodup)
    (hsub : lookupKey inv.ros2_subscribers n = some Tb')
    (hne : Tb' ≠ Tb) :
    (update_bridge env inv ball12 ball21 fuel s).events.filter (isTopic1to2EventFor n) =
      [Event.eraseTopic1to2 n, Event.createTopic1to2 n Ta Tb'] := by
  rw [update_bridge_events_eq]
  simp only [List.filter_append]
  rw [pass1to2_typechange env inv.ros2_subscribers ball12 inv.ros1_publishers _ n Ta Tb Tb'
      hb hpub hnd hsub hne,
    pass2to1_filter_12, svc_pass_ros1_filter_12, svc_pass_ros2_filter_12,
    remove_ros1_filter_12, remove_ros2_filter_12]
  rfl

def invC5 : Inventory :=
  ⟨[("/scan", "LaserScan")], [], [], [("/scan", "LaserScanB2")], [], []⟩

def sC5 : BridgeState := ⟨[("/scan", ⟨"LaserScan", "LaserScanB"⟩)], [], [], []⟩

/-- Witness for C5: the recorded pair is ("LaserScan", "LaserScanB") and the desired
ROS 2 type changed to "LaserScanB2". -/
theorem type_change_replacement_witness :
    (lookupKey sC5.bridges_1to2 "/scan" =
      some (⟨"LaserScan", "LaserScanB"⟩ : TopicBridgeEntry)) ∧
    (lookupKey invC5.ros1_publishers "/scan" = some "LaserScan") ∧
    ((invC5.ros1_publishers.map Prod.fst).Nodup) ∧
    (lookupKey invC5.ros2_subscribers "/scan" = some "LaserScanB2") ∧
    ("LaserScanB2" ≠ "LaserScanB") ∧
    ((update_bridge envW invC5 false false 0 sC5).events.filter
        (isTopic1to2EventFor "/scan") =
      [Event.eraseTopic1to2 "/scan",
       Event.createTopic1to2 "/scan" "LaserScan" "LaserScanB2"]) :=
  ⟨by decide, by decide, by decide, by decide, by decide,
   type_change_replacement envW invC5 false false 0 sC5 "/scan" "LaserScan" "LaserScanB"
     "LaserScanB2" (by decide) (by decide) (by decide) (by decide) (by decide)⟩

/-! ### C1: idempotence on a registry that already reflects the inventory -/

/-- The `bridges_1to2` entry demanded by publisher `pub` is already in place:
either the publisher induces no desired pair, or the registry holds an entry whose
recorded types pass the staleness test of lines 217–220. -/
def pubReflected1to2 (env : Env) (subs : List (String × String)) (ball : Bool)
    (b : List (String × TopicBridgeEntry)) (pub : String × String) : Bool :=
  match desired1to2 env subs ball pub.2 pub.1, lookupKey b pub.1 with
  | none, _ => true
  | some t2, some bridge =>
    bridge.ros1_type_name == pub.2 && bridge.ros2_type_name == t2
  | some _, none => false

/-- The `bridges_2to1` entry demanded by publisher `pub` is already in place,
under the looser staleness test of lines 281–282. -/
def pubReflected2to1 (env : Env) (subs : List (String × String)) (ball : Bool)
    (b : List (String × TopicBridgeEntry)) (pub : String × String) : Bool :=
  match desired2to1 env subs ball pub.2 pub.1, lookupKey b pub.1 with
  | none, _ => true
  | some t1, some bridge =>
    (bridge.ros1_type_name == t1 || bridge.ros1_type_name == "") &&
      bridge.ros2_type_name == pub.2
  | some _, none => false

/-- The registry state reflects the inventory: every demanded topic entry is in
place with non-stale types, every snapshot service name is registered in one of
the two service maps, and every registered service name is still in its
originating snapshot. -/
def reflects (env : Env) (inv : Inventory) (ball12 ball21 : Bool) (s : BridgeState) : Bool :=
  inv.ros1_publishers.all (pubReflected1to2 env inv.ros2_subscribers ball12 s.bridges_1to2) &&
  inv.ros2_publishers.all (pubReflected2to1 env inv.ros1_subscribers ball21 s.bridges_2to1) &&
  inv.ros1_services.all (fun sv =>
    decide (sv.1 ∈ s.service_bridges_2_to_1) || decide (sv.1 ∈ s.service_bridges_1_to_2)) &&
  inv.ros2_services.all (fun sv =>
    decide (sv.1 ∈ s.service_bridges_1_to_2) || decide (sv.1 ∈ s.service_bridges_2_to_1)) &&
  s.service_bridges_2_to_1.all (fun x => (lookupKey inv.ros1_services x).isSome) &&
  s.service_bridges_1_to_2.all (fun x => (lookupKey inv.ros2_services x).isSome)

theorem handle1to2_skip_of_reflected (env : Env) (subs : List (String × String))
    (ball : Bool) (b : List (String × TopicBridgeEntry)) (pub : String × String)
    (h : pubReflected1to2 env subs ball b pub = true) :
    handle1to2 env subs ball pub b = (b, []) := by
  unfold pubReflected1to2 at h
  cases hd : desired1to2 env subs ball pub.2 pub.1 with
  | none => simp only [handle1to2, hd]
  | some t2 =>
    cases hl : lookupKey b pub.1 with
    | none => simp [hd, hl] at h
    | some bridge =>
      simp only [hd, hl, Bool.and_eq_true, beq_iff_eq] at h
      refine handle1to2_skip env subs ball pub b bridge hl ?_
      intro t2' hd'
      rw [hd] at hd'
      injection hd' with hh
      subst hh
      exact h

theorem handle2to1_skip_of_reflected (env : Env) (subs : List (String × String))
    (ball : Bool) (b : List (String × TopicBridgeEntry)) (pub : String × String)
    (h : pubReflected2to1 env subs ball b pub = true) :
    handle2to1 env subs ball pub b = (b, []) := by
  unfold pubReflected2to1 at h
  cases hd : desired2to1 env subs ball pub.2 pub.1 with
  | none => simp only [handle2to1, hd]
  | some t1 =>
    cases hl : lookupKey b pub.1 with
    | none => simp [hd, hl] at h
    | some bridge =>
      simp only [hd, hl, Bool.and_eq_true, Bool.or_eq_true, beq_iff_eq] at h
      refine handle2to1_skip env subs ball pub b bridge hl ?_
      intro t1' hd'
      rw [hd] at hd'
      injection hd' with hh
      subst hh
      exact h

theorem pass1to2_skip_all (env : Env) (subs : List (String × String)) (ball : Bool)
    (pubs : List (String × String)) (b : List (String × TopicBridgeEntry))
    (h : ∀ pub ∈ pubs, handle1to2 env subs ball pub b = (b, [])) :
    pass1to2 env subs ball pubs b = (b, []) := by
  induction pubs with
  | nil => rfl
  | cons pub rest ih =>
    have ih' := ih (fun q hq => h q (List.mem_cons_of_mem _ hq))
    simp [pass1to2, h pub (List.mem_cons_self _ _), ih']

theorem pass2to1_skip_all (env : Env) (subs : List (String × String)) (ball : Bool)
    (pubs : List (String × String)) (b : List (String × TopicBridgeEntry))
    (h : ∀ pub ∈ pubs, handle2to1 env subs ball pub b = (b, [])) :
    pass2to1 env subs ball pubs b = (b, []) := by
  induction pubs with
  | nil => rfl
  | cons pub rest ih =>
    have ih' := ih (fun q hq => h q (List.mem_cons_of_mem _ hq))
    simp [pass2to1, h pub (List.mem_cons_self _ _), ih']

theorem svc_pass_ros1_skip_all (env : Env) (svcs : List (String × SvcDetails))
    (s12 s21 : List String) (h : ∀ sv ∈ svcs, sv.1 ∈ s21 ∨ sv.1 ∈ s12) :
    svc_pass_ros1 env svcs s12 s21 = (s21, []) := by
  induction svcs with
  | nil => rfl
  | cons sv rest ih =>
    obtain ⟨name, details⟩ := sv
    have hc : name ∈ s21 ∨ name ∈ s12 := h _ (List.mem_cons_self _ _)
    simp only [svc_pass_ros1, if_pos hc]
    exact ih (fun q hq => h q (List.mem_cons_of_mem _ hq))

theorem svc_pass_ros2_skip_all (env : Env) (svcs : List (String × SvcDetails))
    (s21 s12 : List String) (h : ∀ sv ∈ svcs, sv.1 ∈ s12 ∨ sv.1 ∈ s21) :
    svc_pass_ros2 env svcs s21 s12 = (s12, []) := by
  induction svcs with
  | nil => rfl
  | cons sv rest ih =>
    obtain ⟨name, details⟩ := sv
    have hc : name ∈ s12 ∨ name ∈ s21 := h _ (List.mem_cons_self _ _)
    simp only [svc_pass_ros2, if_pos hc]
    exact ih (fun q hq => h q (List.mem_cons_of_mem _ hq))

theorem remove_ros1_keep_all (svcs : List (String × SvcDetails)) (l : List String)
    (h : ∀ x ∈ l, (lookupKey svcs x).isSome) :
    remove_obsolete_ros1_services svcs l = (l, []) := by
  induction l with
  | nil => rfl
  | cons n rest ih =>
    have hs := h n (List.mem_cons_self _ _)
    have ih' := ih (fun x hx => h x (List.mem_cons_of_mem _ hx))
    simp [remove_obsolete_ros1_services, ih', if_pos hs]

theorem remove_ros2_keep_all (env : Env) (svcs : List (String × SvcDetails)) :
    ∀ fuel l, (∀ x ∈ l, (lookupKey svcs x).isSome) → l.length ≤ fuel →
      remove_obsolete_ros2_services env svcs fuel l = (l, [], true) := by
  intro fuel
  induction fuel with
  | zero =>
    intro l h hlen
    cases l with
    | nil => rfl
    | cons n rest => exact absurd hlen (by simp)
  | succ k ih =>
    intro l h hlen
    cases l with
    | nil => rfl
    | cons n rest =>
      have hs := h n (List.mem_cons_self _ _)
      have ih' := ih rest (fun x hx => h x (List.mem_cons_of_mem _ hx))
        (Nat.le_of_succ_le_succ hlen)
      simp [remove_obsolete_ros2_services, if_pos hs, ih']

/-- Claim C1: on a registry state that already reflects the inventory snapshots,
`update_bridge` performs zero bridge-factory calls (an empty event trace: no
creation attempts, no `get_service_factory` lookups, no erasures) and returns all
four bridge-entry maps unchanged. -/
theorem update_bridge_idempotent (env : Env) (inv : Inventory) (ball12 ball21 : Bool)
    (fuel : Nat) (s : BridgeState)
    (href : reflects env inv ball12 ball21 s = true)
    (hfuel : s.service_bridges_1_to_2.length ≤ fuel) :
    update_bridge env inv ball12 ball21 fuel s = ⟨s, [], true⟩ := by
  unfold reflects at href
  simp only [Bool.and_eq_true, List.all_eq_true] at href
  obtain ⟨⟨⟨⟨⟨hp1, hp2⟩, hs1⟩, hs2⟩, hk21⟩, hk12⟩ := href
  have e1 : pass1to2 env inv.ros2_subscribers ball12 inv.ros1_publishers s.bridges_1to2 =
      (s.bridges_1to2, []) :=
    pass1to2_skip_all _ _ _ _ _ (fun pub hpub =>
      handle1to2_skip_of_reflected _ _ _ _ _ (hp1 pub hpub))
  have e2 : pass2to1 env inv.ros1_subscribers ball21 inv.ros2_publishers s.bridges_2to1 =
      (s.bridges_2to1, []) :=
    pass2to1_skip_all _ _ _ _ _ (fun pub hpub =>
      handle2to1_skip_of_reflected _ _ _ _ _ (hp2 pub hpub))
  have e3 : svc_pass_ros1 env inv.ros1_services s.service_bridges_1_to_2
      s.service_bridges_2_to_1 = (s.service_bridges_2_to_1, []) :=
    svc_pass_ros1_skip_all _ _ _ _ (fun sv hsv => by
      have := hs1 sv hsv
      simpa using this)
  have e4 : svc_pass_ros2 env inv.ros2_services s.service_bridges_2_to_1
      s.service_bridges_1_to_2 = (s.service_bridges_1_to_2, []) :=
    svc_pass_ros2_skip_all _ _ _ _ (fun sv hsv => by
      have := hs2 sv hsv
      simpa using this)
  have e5 : remove_obsolete_ros1_services inv.ros1_services s.service_bridges_2_to_1 =
      (s.service_bridges_2_to_1, []) :=
    remove_ros1_keep_all _ _ (fun x hx => hk21 x hx)
  have e6 : remove_obsolete_ros2_services env inv.ros2_services fuel
      s.service_bridges_1_to_2 = (s.service_bridges_1_to_2, [], true) :=
    remove_ros2_keep_all env _ fuel _ (fun x hx => hk12 x hx) hfuel
  simp [update_bridge, e1, e2, e3, e4, e5, e6]

def invC1 : Inventory :=
  ⟨[("/scan", "LaserScan")], [], [], [("/scan", "LaserScanB")],
   [("/srv", ⟨"pkg", "Srv"⟩)], []⟩

def sC1 : BridgeState :=
  ⟨[("/scan", ⟨"LaserScan", "LaserScanB"⟩)], [], [], ["/srv"]⟩

/-- Witness for C1: the registry already carries the demanded topic bridge and the
registered service bridge for the snapshot's only service. -/
theorem update_bridge_idempotent_witness :
    (reflects envW invC1 false false sC1 = true) ∧
    (sC1.service_bridges_1_to_2.length ≤ 0) ∧
    update_bridge envW invC1 false false 0 sC1 = ⟨sC1, [], true⟩ :=
  ⟨by decide, by decide,
   update_bridge_idempotent envW invC1 false false 0 sC1 (by decide) (by decide)⟩

end DynBridge
